import Mathlib

set_option autoImplicit false

/-!
Shallow embedding of the gcache Redis adapter (`adapter/adapter_redis.go`).

The remote store is modelled as an association list from keys to entries
(value plus expiry in whole seconds).  Every remote command the adapter
issues is recorded in a trace, and a failure schedule injects collaborator
errors by call index, so that error-propagation behaviour is provable.
Durations are Go `time.Duration` values: signed integers counting
nanoseconds.
-/

namespace Adapter

abbrev Key := String
abbrev Val := String
abbrev Err := String

/-- Go `time.Duration`: a signed count of nanoseconds. -/
abbrev Duration := Int

/-- Go `time.Second` in nanoseconds. -/
def second : Duration := 1000000000

/-- The protocol-boundary conversion `uint64(d.Seconds())`: whole seconds,
fractional part dropped.  The source only reaches it with `d > 0`. -/
def goSeconds (d : Duration) : Nat := (d / second).toNat

/-- One stored entry of the remote store: the value and its expiry
(`none` = never expires, `some n` = `n` seconds remaining). -/
structure Entry where
  value : Val
  expiry : Option Nat
deriving DecidableEq, Repr

/-- The remote key space: an association list, most recent binding first. -/
abbrev Store := List (Key × Entry)

def findEntry (st : Store) (k : Key) : Option Entry :=
  match st with
  | [] => none
  | (k2, e) :: rest => if k2 = k then some e else findEntry rest k

def eraseKey (st : Store) (k : Key) : Store :=
  st.filter (fun p => p.1 != k)

def setEntry (st : Store) (k : Key) (e : Entry) : Store :=
  (k, e) :: eraseKey st k

/-- The remote commands the adapter issues (the outbound contract of the
spec, one constructor per Redis command used by the source). -/
inductive Cmd where
  | del (keys : List Key)
  | set (k : Key) (v : Val)
  | setex (k : Key) (sec : Nat) (v : Val)
  | setnx (k : Key) (v : Val)
  | get (k : Key)
  | ttl (k : Key)
  | expire (k : Key) (sec : Nat)
deriving DecidableEq, Repr

/-- A decoded reply as the adapter observes it through the collaborator's
Var wrapper: nil, an integer reply, or a bulk string. -/
inductive RVal where
  | nil
  | int (n : Int)
  | str (s : Val)
deriving DecidableEq, Repr

/-- Var.Int(): integer replies decode to themselves, anything else to 0. -/
def RVal.toInt : RVal → Int
  | .nil => 0
  | .int n => n
  | .str _ => 0

/-- Var.Duration() on an integer reply `n` yields `time.Duration(n)`,
that is `n` interpreted as nanoseconds. -/
def RVal.toDuration : RVal → Duration
  | .nil => 0
  | .int n => n
  | .str _ => 0

/-- Var.Val() serialized back into a command argument (nil becomes ""). -/
def RVal.toVal : RVal → Val
  | .nil => ""
  | .int n => toString n
  | .str s => s

/-- Serialization of a possibly-nil interface value into a command
argument, as the collaborator's argument conversion does (nil → ""). -/
def goArg : Option Val → String
  | none => ""
  | some s => s

/-- DEL over a list of keys: removes each existing key and counts the
removals (a key given twice is only counted once, as in Redis). -/
def delKeys (st : Store) (ks : List Key) : Nat × Store :=
  match ks with
  | [] => (0, st)
  | k :: rest =>
    match findEntry st k with
    | some _ =>
      let out := delKeys (eraseKey st k) rest
      (out.1 + 1, out.2)
    | none => delKeys st rest

/-- Semantics of one remote command against the store: the reply and the
updated store.  This models the Redis server of the collaborator contract. -/
def execCmd (c : Cmd) (st : Store) : RVal × Store :=
  match c with
  | .del ks =>
    let out := delKeys st ks
    (.int out.1, out.2)
  | .set k v => (.str "OK", setEntry st k ⟨v, none⟩)
  | .setex k sec v => (.str "OK", setEntry st k ⟨v, some sec⟩)
  | .setnx k v =>
    match findEntry st k with
    | some _ => (.int 0, st)
    | none => (.int 1, setEntry st k ⟨v, none⟩)
  | .get k =>
    match findEntry st k with
    | some e => (.str e.value, st)
    | none => (.nil, st)
  | .ttl k =>
    match findEntry st k with
    | none => (.int (-2), st)
    | some e =>
      match e.expiry with
      | none => (.int (-1), st)
      | some n => (.int n, st)
  | .expire k sec =>
    match findEntry st k with
    | some e => (.int 1, setEntry st k ⟨e.value, some sec⟩)
    | none => (.int 0, st)

/-- The remote-call state threaded through an adapter operation: the
store, the commands issued so far (each paired with the error it produced,
`none` on success), and the failure schedule indexed by call number. -/
structure RState where
  store : Store
  trace : List (Cmd × Option Err)
  sched : Nat → Option Err

/-- The schedule on which every remote call succeeds. -/
def noFail : Nat → Option Err := fun _ => none

/-- One `DoVar`/`Do` call: on a scheduled failure the collaborator returns
the error and a nil Var and the store is untouched; otherwise the command
executes and its reply is returned. -/
def doVar (c : Cmd) (s : RState) : RVal × Option Err × RState :=
  match s.sched s.trace.length with
  | some e => (.nil, some e, ⟨s.store, s.trace ++ [(c, some e)], s.sched⟩)
  | none =>
    let out := execCmd c s.store
    (out.1, none, ⟨out.2, s.trace ++ [(c, none)], s.sched⟩)

/-- Set (adapter_redis.go lines 33-45): nil value or negative duration
deletes the key; zero duration writes without expiry; otherwise SETEX with
the duration in whole seconds. -/
def Redis.Set (key : Key) (value : Option Val) (duration : Duration)
    (s : RState) : Option Err × RState :=
  if value = none ∨ duration < 0 then
    let out := doVar (.del [key]) s
    (out.2.1, out.2.2)
  else if duration = 0 then
    let out := doVar (.set key (goArg value)) s
    (out.2.1, out.2.2)
  else
    let out := doVar (.setex key (goSeconds duration) (goArg value)) s
    (out.2.1, out.2.2)

/-- Update (adapter_redis.go lines 52-89).  The result mirrors the Go
named returns `(oldValue, exist, err)`; `oldValue = none` models the nil
Var pointer. -/
def Redis.Update (key : Key) (value : Option Val) (s : RState) :
    (Option RVal × Bool × Option Err) × RState :=
  let r1 := doVar (.ttl key) s
  match r1.2.1 with
  | some e => ((none, false, some e), r1.2.2)
  | none =>
    let s1 := r1.2.2
    let oldDuration : Duration := r1.1.toDuration
    if oldDuration = -2 then
      ((none, false, none), s1)
    else
      let r2 := doVar (.get key) s1
      match r2.2.1 with
      | some e => ((none, false, some e), r2.2.2)
      | none =>
        let s2 := r2.2.2
        let oldValue := some r2.1
        match value with
        | none =>
          let r3 := doVar (.del [key]) s2
          match r3.2.1 with
          | some e => ((oldValue, false, some e), r3.2.2)
          | none => ((oldValue, false, none), r3.2.2)
        | some newV =>
          if oldDuration = -1 then
            let r3 := doVar (.set key newV) s2
            ((oldValue, true, r3.2.1), r3.2.2)
          else
            let od := oldDuration * second
            let r3 := doVar (.setex key (goSeconds od) newV) s2
            ((oldValue, true, r3.2.1), r3.2.2)

/-- UpdateExpire (adapter_redis.go lines 95-129). -/
def Redis.UpdateExpire (key : Key) (duration : Duration) (s : RState) :
    (Duration × Option Err) × RState :=
  let r1 := doVar (.ttl key) s
  match r1.2.1 with
  | some e => ((0, some e), r1.2.2)
  | none =>
    let s1 := r1.2.2
    let oldDuration : Duration := r1.1.toDuration
    if oldDuration = -2 then
      ((-1, none), s1)
    else
      let oldDuration2 := oldDuration * second
      if duration < 0 then
        let r2 := doVar (.del [key]) s1
        ((oldDuration2, r2.2.1), r2.2.2)
      else if duration > 0 then
        let r2 := doVar (.expire key (goSeconds duration)) s1
        ((oldDuration2, r2.2.1), r2.2.2)
      else
        let r2 := doVar (.get key) s1
        match r2.2.1 with
        | some e => ((oldDuration2, some e), r2.2.2)
        | none =>
          let r3 := doVar (.set key r2.1.toVal) r2.2.2
          ((oldDuration2, r3.2.1), r3.2.2)

/-- GetExpire (adapter_redis.go lines 135-148). -/
def Redis.GetExpire (key : Key) (s : RState) : (Duration × Option Err) × RState :=
  let r1 := doVar (.ttl key) s
  match r1.2.1 with
  | some e => ((0, some e), r1.2.2)
  | none =>
    if r1.1.toInt = -1 then ((0, none), r1.2.2)
    else if r1.1.toInt = -2 then ((-1, none), r1.2.2)
    else ((r1.1.toDuration * second, none), r1.2.2)

/-- The dynamic `value interface{}` argument of SetIfNotExist: either a
plain (possibly nil) value or a deferred producer function returning a
value-or-error pair.  A producer takes no arguments, so in a pure
embedding it is identified with the pair it returns. -/
inductive SetArg where
  | plain (v : Option Val)
  | producer (v : Option Val) (e : Option Err)
deriving DecidableEq

/-- SetIfNotExist (adapter_redis.go lines 159-193).  Note the source
passes the resolved value as a second argument to DEL, and returns true
from the SETNX path only when `v.Int() > 0 && duration > 0`. -/
def Redis.SetIfNotExist (key : Key) (value : SetArg) (duration : Duration)
    (s : RState) : (Bool × Option Err) × RState :=
  match value with
  | .producer none e => ((false, e), s)
  | _ =>
    let v : Option Val :=
      match value with
      | .plain w => w
      | .producer w _ => w
    if duration < 0 ∨ v = none then
      let r1 := doVar (.del [key, goArg v]) s
      match r1.2.1 with
      | some e => ((false, some e), r1.2.2)
      | none =>
        if r1.1.toInt = 1 then ((true, none), r1.2.2)
        else ((false, none), r1.2.2)
    else
      let r1 := doVar (.setnx key (goArg v)) s
      match r1.2.1 with
      | some e => ((false, some e), r1.2.2)
      | none =>
        if r1.1.toInt > 0 ∧ duration > 0 then
          let r2 := doVar (.expire key (goSeconds duration)) r1.2.2
          match r2.2.1 with
          | some e => ((false, some e), r2.2.2)
          | none => ((true, none), r2.2.2)
        else ((false, none), r1.2.2)

/-- Get (adapter_redis.go lines 285-291).  Per the spec's collaborator
contract, a reply for an absent key is distinguishable as a nil Var,
modelled here as `none`. -/
def Redis.Get (key : Key) (s : RState) : (Option RVal × Option Err) × RState :=
  let r1 := doVar (.get key) s
  match r1.2.1 with
  | some e => ((none, some e), r1.2.2)
  | none =>
    if r1.1 = .nil then ((none, none), r1.2.2)
    else ((some r1.1, none), r1.2.2)

/-- SetIfNotExistFunc (adapter_redis.go lines 203-220).  The producer `f`
is identified with the pair it returns. -/
def Redis.SetIfNotExistFunc (key : Key) (f : Option Val × Option Err)
    (duration : Duration) (s : RState) : (Bool × Option Err) × RState :=
  let r1 := Redis.Get key s
  match r1.1.2 with
  | some e => ((false, some e), r1.2)
  | none =>
    match r1.1.1 with
    | none =>
      match f.2 with
      | some e => ((false, some e), r1.2)
      | none =>
        match f.1 with
        | none => ((false, none), r1.2)
        | some v =>
          let r2 := Redis.Set key (some v) duration r1.2
          ((true, r2.1), r2.2)
    | some _ => ((false, none), r1.2)

/-- SetIfNotExistFuncLock (adapter_redis.go lines 230-232): a direct call
to SetIfNotExistFunc. -/
def Redis.SetIfNotExistFuncLock (key : Key) (f : Option Val × Option Err)
    (duration : Duration) (s : RState) : (Bool × Option Err) × RState :=
  Redis.SetIfNotExistFunc key f duration s

/-- GetOrSetFunc (adapter_redis.go lines 319-336). -/
def Redis.GetOrSetFunc (key : Key) (f : Option Val × Option Err)
    (duration : Duration) (s : RState) : (Option RVal × Option Err) × RState :=
  let r1 := Redis.Get key s
  match r1.1.2 with
  | some e => ((none, some e), r1.2)
  | none =>
    match r1.1.1 with
    | none =>
      match f.2 with
      | some e => ((none, some e), r1.2)
      | none =>
        match f.1 with
        | none => ((none, none), r1.2)
        | some v =>
          let r2 := Redis.Set key (some v) duration r1.2
          ((some (.str v), r2.1), r2.2)
    | some w => ((some w, none), r1.2)

/-- GetOrSetFuncLock (adapter_redis.go lines 347-349): a direct call to
GetOrSetFunc. -/
def Redis.GetOrSetFuncLock (key : Key) (f : Option Val × Option Err)
    (duration : Duration) (s : RState) : (Option RVal × Option Err) × RState :=
  Redis.GetOrSetFunc key f duration s

/-- Replay of a command list against a store, ignoring replies: the store
an operation's successful calls leave behind. -/
def replay (st : Store) (cs : List Cmd) : Store :=
  cs.foldl (fun s c => (execCmd c s).2) st

/-- A run aborts cleanly at the first collaborator failure: whenever some
issued command failed, the failing call is the last command issued, every
earlier call succeeded, the returned error is exactly the collaborator's,
and the final store is the replay of the successful prefix (no rollback). -/
def abortsOnFirstFailure (st0 : Store) (s2 : RState) (err : Option Err) : Prop :=
  (∃ p ∈ s2.trace, p.2 ≠ none) →
    ∃ pre c e, s2.trace = pre ++ [(c, some e)] ∧ (∀ q ∈ pre, q.2 = none) ∧
      err = some e ∧ s2.store = replay st0 (pre.map Prod.fst)

theorem findEntry_eraseKey_self (st : Store) (k : Key) :
    findEntry (eraseKey st k) k = none := by
  induction st with
  | nil => rfl
  | cons p rest ih =>
    by_cases h : p.1 = k
    · simpa [eraseKey, h] using ih
    · simpa [eraseKey, findEntry, h] using ih

theorem findEntry_setEntry_self (st : Store) (k : Key) (e : Entry) :
    findEntry (setEntry st k e) k = some e := by
  simp [setEntry, findEntry]

theorem goSeconds_natMulSecond (n : Nat) : goSeconds ((n : Int) * second) = n := by
  rw [goSeconds, Int.mul_ediv_cancel _ (by norm_num [second])]
  exact Int.toNat_natCast n

/-- C3: Set issues exactly one remote command, chosen by precedence: a
delete when the value is nil or the duration negative, an unconditional
write when the duration is zero, and otherwise a write with expiry equal
to the duration truncated to whole seconds. -/
theorem setIssuesExactlyOneCommand (st : Store) (sched : Nat → Option Err)
    (key : Key) (value : Option Val) (duration : Duration) :
    (Redis.Set key value duration ⟨st, [], sched⟩).2.trace.map Prod.fst =
      [if value = none ∨ duration < 0 then Cmd.del [key]
       else if duration = 0 then Cmd.set key (goArg value)
       else Cmd.setex key ((duration / 1000000000).toNat) (goArg value)] := by
  rcases h : sched 0 with _ | e <;> cases value <;>
    by_cases h1 : duration < 0 <;>
      by_cases h2 : duration = 0 <;>
        simp [Redis.Set, doVar, goSeconds, second, h, h1, h2]

/-- C9: the lock-suffixed variants are the non-lock ones: on every state
they return the same result and leave the same store and command trace. -/
theorem lockVariantsAreAliases (key : Key) (f : Option Val × Option Err)
    (duration : Duration) (s : RState) :
    Redis.SetIfNotExistFuncLock key f duration s
        = Redis.SetIfNotExistFunc key f duration s ∧
      Redis.GetOrSetFuncLock key f duration s
        = Redis.GetOrSetFunc key f duration s :=
  ⟨rfl, rfl⟩

/-- C1 (code bug): with an absent key, a plain non-nil value and duration
zero, SETNX newly sets the key — afterwards the store holds it and the
only issued command is a successful SETNX — yet SetIfNotExist returns
false, because the source requires `duration > 0` to report success. -/
theorem setIfNotExistZeroDurationReturnsFalse :
    (Redis.SetIfNotExist "k" (SetArg.plain (some "v")) 0 ⟨[], [], noFail⟩).1
        = (false, none) ∧
      (Redis.SetIfNotExist "k" (SetArg.plain (some "v")) 0 ⟨[], [], noFail⟩).2.store
        = [("k", ⟨"v", none⟩)] ∧
      (Redis.SetIfNotExist "k" (SetArg.plain (some "v")) 0 ⟨[], [], noFail⟩).2.trace
        = [(Cmd.setnx "k" "v", none)] := by
  refine ⟨rfl, rfl, rfl⟩

/-- C2 (code bug): the delete branch passes the resolved value as a second
DEL key.  With keys "a" and "b" both present and value "b", the call
deletes key "b" as well, and the deletion count of 2 makes it report
false even though the given key "a" was deleted. -/
theorem setIfNotExistDeleteAlsoDeletesValueKey :
    (Redis.SetIfNotExist "a" (SetArg.plain (some "b")) (-1)
          ⟨[("a", ⟨"x", none⟩), ("b", ⟨"y", none⟩)], [], noFail⟩).1
        = (false, none) ∧
      (Redis.SetIfNotExist "a" (SetArg.plain (some "b")) (-1)
          ⟨[("a", ⟨"x", none⟩), ("b", ⟨"y", none⟩)], [], noFail⟩).2.store = [] ∧
      (Redis.SetIfNotExist "a" (SetArg.plain (some "b")) (-1)
          ⟨[("a", ⟨"x", none⟩), ("b", ⟨"y", none⟩)], [], noFail⟩).2.trace
        = [(Cmd.del ["a", "b"], none)] := by
  refine ⟨rfl, rfl, rfl⟩

/-- C4: Update on a key whose TTL query returns the absent sentinel -2
returns (nil, false, nil), issues only the TTL command, and leaves the
store exactly as it was. -/
theorem updateAbsentKeyIsReadOnly (st : Store) (sched : Nat → Option Err)
    (key : Key) (value : Option Val) (hk : findEntry st key = none)
    (h0 : sched 0 = none) :
    (Redis.Update key value ⟨st, [], sched⟩).1 = (none, false, none) ∧
      (Redis.Update key value ⟨st, [], sched⟩).2.store = st ∧
      (Redis.Update key value ⟨st, [], sched⟩).2.trace.map Prod.fst
        = [Cmd.ttl key] := by
  refine ⟨?_, ?_, ?_⟩ <;>
    simp [Redis.Update, doVar, h0, execCmd, hk, RVal.toDuration]

theorem updateAbsentKeyIsReadOnlyWitness :
    (Redis.Update "k" (some "v") ⟨[], [], noFail⟩).1 = (none, false, none) ∧
      (Redis.Update "k" (some "v") ⟨[], [], noFail⟩).2.store = [] ∧
      (Redis.Update "k" (some "v") ⟨[], [], noFail⟩).2.trace.map Prod.fst
        = [Cmd.ttl "k"] :=
  updateAbsentKeyIsReadOnly [] noFail "k" (some "v") rfl rfl

/-- C5: Update on an existing key with a non-nil value reads the TTL and
the value, then rewrites the key preserving the observed TTL — an
unconditional SET when the sentinel was never-expires, a SETEX with the
observed remaining seconds otherwise — and returns the previously read
value with exist true and no error. -/
theorem updateExistingRewritesPreservingTtl (st : Store)
    (sched : Nat → Option Err) (key : Key) (v : Val) (e : Entry)
    (hk : findEntry st key = some e) (h0 : sched 0 = none)
    (h1 : sched 1 = none) (h2 : sched 2 = none) :
    (Redis.Update key (some v) ⟨st, [], sched⟩).1
        = (some (RVal.str e.value), true, none) ∧
      (Redis.Update key (some v) ⟨st, [], sched⟩).2.trace.map Prod.fst =
        [Cmd.ttl key, Cmd.get key,
          match e.expiry with
          | none => Cmd.set key v
          | some n => Cmd.setex key n v] ∧
      findEntry (Redis.Update key (some v) ⟨st, [], sched⟩).2.store key
        = some ⟨v, e.expiry⟩ := by
  obtain ⟨val, exp⟩ := e
  cases exp with
  | none =>
    refine ⟨?_, ?_, ?_⟩ <;>
      simp [Redis.Update, doVar, h0, h1, h2, execCmd, hk, RVal.toDuration,
        findEntry_setEntry_self]
  | some n =>
    have hn2 : (n : Int) ≠ -2 := by omega
    have hn1 : (n : Int) ≠ -1 := by omega
    refine ⟨?_, ?_, ?_⟩ <;>
      simp [Redis.Update, doVar, h0, h1, h2, execCmd, hk, RVal.toDuration,
        hn2, hn1, goSeconds_natMulSecond, findEntry_setEntry_self]

theorem updateExistingRewritesPreservingTtlWitness :
    (Redis.Update "k" (some "w") ⟨[("k", ⟨"x", some 5⟩)], [], noFail⟩).1
        = (some (RVal.str "x"), true, none) ∧
      (Redis.Update "k" (some "w")
          ⟨[("k", ⟨"x", some 5⟩)], [], noFail⟩).2.trace.map Prod.fst
        = [Cmd.ttl "k", Cmd.get "k", Cmd.setex "k" 5 "w"] ∧
      findEntry (Redis.Update "k" (some "w")
          ⟨[("k", ⟨"x", some 5⟩)], [], noFail⟩).2.store "k"
        = some ⟨"w", some 5⟩ :=
  updateExistingRewritesPreservingTtl [("k", ⟨"x", some 5⟩)] noFail "k" "w"
    ⟨"x", some 5⟩ rfl rfl rfl rfl

/-- C7: GetExpire maps the TTL sentinel -1 (exists, never expires) to 0,
the sentinel -2 (does not exist) to -1, any other reply of n seconds to
n scaled into the duration unit, and a failed TTL query to the error with
a zero duration. -/
theorem getExpireSentinelMapping (st : Store) (sched : Nat → Option Err)
    (key : Key) :
    (∀ e, sched 0 = some e →
        (Redis.GetExpire key ⟨st, [], sched⟩).1 = (0, some e)) ∧
      (sched 0 = none →
        (Redis.GetExpire key ⟨st, [], sched⟩).1 =
          match findEntry st key with
          | none => (-1, none)
          | some ⟨_, none⟩ => (0, none)
          | some ⟨_, some n⟩ => ((n : Duration) * second, none)) := by
  constructor
  · intro e he
    simp [Redis.GetExpire, doVar, he]
  · intro h0
    rcases hk : findEntry st key with _ | ⟨val, _ | n⟩
    · simp [Redis.GetExpire, doVar, h0, execCmd, hk, RVal.toInt]
    · simp [Redis.GetExpire, doVar, h0, execCmd, hk, RVal.toInt]
    · have hn2 : (n : Int) ≠ -2 := by omega
      have hn1 : (n : Int) ≠ -1 := by omega
      simp [Redis.GetExpire, doVar, h0, execCmd, hk, RVal.toInt,
        RVal.toDuration, hn2, hn1]

theorem getExpireSentinelMappingWitness :
    (Redis.GetExpire "k" ⟨[("k", ⟨"x", none⟩)], [], noFail⟩).1 = (0, none) ∧
      (Redis.GetExpire "z" ⟨[("k", ⟨"x", none⟩)], [], noFail⟩).1 = (-1, none) ∧
      (Redis.GetExpire "k"
          ⟨[("k", ⟨"x", some 7⟩)], [], fun _ => some "boom"⟩).1
        = (0, some "boom") :=
  ⟨(getExpireSentinelMapping [("k", ⟨"x", none⟩)] noFail "k").2 rfl,
   (getExpireSentinelMapping [("k", ⟨"x", none⟩)] noFail "z").2 rfl,
   (getExpireSentinelMapping [("k", ⟨"x", some 7⟩)] (fun _ => some "boom") "k").1
     "boom" rfl⟩

/-- C8: UpdateExpire on a key that exists without expiry returns an old
duration of minus one second (the never-expires sentinel -1 scaled by
time.Second), not 0, while GetExpire returns 0 for that same key; on an
absent key UpdateExpire returns -1, so the two UpdateExpire signals are
both negative and a caller cannot separate them by sign alone. -/
theorem updateExpireNeverExpiresAliasing (st : Store)
    (sched : Nat → Option Err) (key : Key) (duration : Duration) (val : Val)
    (hk : findEntry st key = some ⟨val, none⟩) (hok : ∀ n, sched n = none) :
    (Redis.UpdateExpire key duration ⟨st, [], sched⟩).1.1 = -1 * second ∧
      (Redis.GetExpire key ⟨st, [], sched⟩).1 = (0, none) ∧
      (∀ st2 key2 d2 (sched2 : Nat → Option Err), findEntry st2 key2 = none →
          sched2 0 = none →
          (Redis.UpdateExpire key2 d2 ⟨st2, [], sched2⟩).1.1 = -1) ∧
      -1 * second < 0 ∧ (-1 : Duration) < 0 := by
  refine ⟨?_, ?_, ?_, by norm_num [second], by norm_num⟩
  · rcases lt_trichotomy duration 0 with hd | hd | hd
    · simp [Redis.UpdateExpire, doVar, hok, execCmd, hk, RVal.toDuration, hd]
    · have hneg : ¬duration < 0 := by rw [hd]; exact lt_irrefl 0
      simp [Redis.UpdateExpire, doVar, hok, execCmd, hk, RVal.toDuration,
        hd, hneg]
    · have hneg : ¬duration < 0 := lt_asymm hd
      simp [Redis.UpdateExpire, doVar, hok, execCmd, hk, RVal.toDuration,
        hd, hneg]
  · simp [Redis.GetExpire, doVar, hok, execCmd, hk, RVal.toInt]
  · intro st2 key2 d2 sched2 hk2 h0
    simp [Redis.UpdateExpire, doVar, h0, execCmd, hk2, RVal.toDuration]

theorem updateExpireNeverExpiresAliasingWitness :
    (Redis.UpdateExpire "k" 7 ⟨[("k", ⟨"x", none⟩)], [], noFail⟩).1.1
        = -1 * second ∧
      (Redis.GetExpire "k" ⟨[("k", ⟨"x", none⟩)], [], noFail⟩).1 = (0, none) ∧
      (Redis.UpdateExpire "z" 5 ⟨[], [], noFail⟩).1.1 = -1 :=
  ⟨(updateExpireNeverExpiresAliasing [("k", ⟨"x", none⟩)] noFail "k" 7 "x" rfl
      (fun _ => rfl)).1,
   (updateExpireNeverExpiresAliasing [("k", ⟨"x", none⟩)] noFail "k" 7 "x" rfl
      (fun _ => rfl)).2.1,
   (updateExpireNeverExpiresAliasing [("k", ⟨"x", none⟩)] noFail "k" 7 "x" rfl
      (fun _ => rfl)).2.2.1 [] "z" 5 noFail rfl rfl⟩

/-- C6: UpdateExpire reads the TTL first; the absent sentinel -2 makes it
return -1 with no further commands; otherwise a negative duration deletes
the key, a positive duration issues EXPIRE with the duration in whole
seconds, and a zero duration re-reads the value and rewrites it with an
unconditional no-expiry SET. -/
theorem updateExpireBranchBehaviour (st : Store) (sched : Nat → Option Err)
    (key : Key) (duration : Duration) (hok : ∀ n, sched n = none) :
    (findEntry st key = none →
        (Redis.UpdateExpire key duration ⟨st, [], sched⟩).1 = (-1, none) ∧
          (Redis.UpdateExpire key duration ⟨st, [], sched⟩).2.trace.map Prod.fst
            = [Cmd.ttl key]) ∧
      (∀ e, findEntry st key = some e →
        (duration < 0 →
            (Redis.UpdateExpire key duration ⟨st, [], sched⟩).2.trace.map Prod.fst
                = [Cmd.ttl key, Cmd.del [key]] ∧
              findEntry
                (Redis.UpdateExpire key duration ⟨st, [], sched⟩).2.store key
                = none) ∧
          (0 < duration →
            (Redis.UpdateExpire key duration ⟨st, [], sched⟩).2.trace.map Prod.fst
              = [Cmd.ttl key,
                 Cmd.expire key ((duration / 1000000000).toNat)]) ∧
          (duration = 0 →
            (Redis.UpdateExpire key duration ⟨st, [], sched⟩).2.trace.map Prod.fst
                = [Cmd.ttl key, Cmd.get key, Cmd.set key e.value] ∧
              findEntry
                (Redis.UpdateExpire key duration ⟨st, [], sched⟩).2.store key
                = some ⟨e.value, none⟩)) := by
  constructor
  · intro hk
    constructor <;>
      simp [Redis.UpdateExpire, doVar, hok, execCmd, hk, RVal.toDuration]
  · rintro ⟨val, exp⟩ hk
    refine ⟨?_, ?_, ?_⟩
    · intro hd
      cases exp with
      | none =>
        constructor <;>
          simp [Redis.UpdateExpire, doVar, hok, execCmd, hk, RVal.toDuration,
            hd, delKeys, findEntry_eraseKey_self]
      | some n =>
        have hn2 : (n : Int) ≠ -2 := by omega
        constructor <;>
          simp [Redis.UpdateExpire, doVar, hok, execCmd, hk, RVal.toDuration,
            hd, hn2, delKeys, findEntry_eraseKey_self]
    · intro hd
      have hneg : ¬duration < 0 := lt_asymm hd
      cases exp with
      | none =>
        simp [Redis.UpdateExpire, doVar, hok, execCmd, hk, RVal.toDuration,
          hd, hneg, goSeconds, second]
      | some n =>
        have hn2 : (n : Int) ≠ -2 := by omega
        simp [Redis.UpdateExpire, doVar, hok, execCmd, hk, RVal.toDuration,
          hd, hneg, hn2, goSeconds, second]
    · intro hd
      cases exp with
      | none =>
        constructor <;>
          simp [Redis.UpdateExpire, doVar, hok, execCmd, hk, RVal.toDuration,
            hd, RVal.toVal, findEntry_setEntry_self]
      | some n =>
        have hn2 : (n : Int) ≠ -2 := by omega
        constructor <;>
          simp [Redis.UpdateExpire, doVar, hok, execCmd, hk, RVal.toDuration,
            hd, hn2, RVal.toVal, findEntry_setEntry_self]

theorem updateExpireBranchBehaviourWitness :
    ((Redis.UpdateExpire "z" 5 ⟨[], [], noFail⟩).1 = (-1, none) ∧
        (Redis.UpdateExpire "z" 5 ⟨[], [], noFail⟩).2.trace.map Prod.fst
          = [Cmd.ttl "z"]) ∧
      ((Redis.UpdateExpire "k" (-1)
            ⟨[("k", ⟨"x", some 5⟩)], [], noFail⟩).2.trace.map Prod.fst
          = [Cmd.ttl "k", Cmd.del ["k"]] ∧
        findEntry (Redis.UpdateExpire "k" (-1)
            ⟨[("k", ⟨"x", some 5⟩)], [], noFail⟩).2.store "k" = none) ∧
      ((Redis.UpdateExpire "k" 2000000000
          ⟨[("k", ⟨"x", some 5⟩)], [], noFail⟩).2.trace.map Prod.fst
        = [Cmd.ttl "k", Cmd.expire "k" 2]) ∧
      ((Redis.UpdateExpire "k" 0
            ⟨[("k", ⟨"x", some 5⟩)], [], noFail⟩).2.trace.map Prod.fst
          = [Cmd.ttl "k", Cmd.get "k", Cmd.set "k" "x"] ∧
        findEntry (Redis.UpdateExpire "k" 0
            ⟨[("k", ⟨"x", some 5⟩)], [], noFail⟩).2.store "k"
          = some ⟨"x", none⟩) :=
  ⟨(updateExpireBranchBehaviour [] noFail "z" 5 (fun _ => rfl)).1 rfl,
   ((updateExpireBranchBehaviour [("k", ⟨"x", some 5⟩)] noFail "k" (-1)
       (fun _ => rfl)).2 ⟨"x", some 5⟩ rfl).1 (by norm_num),
   ((updateExpireBranchBehaviour [("k", ⟨"x", some 5⟩)] noFail "k" 2000000000
       (fun _ => rfl)).2 ⟨"x", some 5⟩ rfl).2.1 (by norm_num),
   ((updateExpireBranchBehaviour [("k", ⟨"x", some 5⟩)] noFail "k" 0
       (fun _ => rfl)).2 ⟨"x", some 5⟩ rfl).2.2 rfl⟩

theorem update_aborts (st : Store) (sched : Nat → Option Err) (key : Key)
    (value : Option Val) :
    abortsOnFirstFailure st (Redis.Update key value ⟨st, [], sched⟩).2
      (Redis.Update key value ⟨st, [], sched⟩).1.2.2 := by
  unfold abortsOnFirstFailure
  intro hfail
  rcases hs0 : sched 0 with _ | e0
  · rcases hk : findEntry st key with _ | ⟨val, _ | n⟩
    · simp [Redis.Update, doVar, hs0, execCmd, hk, RVal.toDuration] at hfail
    · rcases hs1 : sched 1 with _ | e1
      · cases value with
        | none =>
          rcases hs2 : sched 2 with _ | e2
          · simp [Redis.Update, doVar, hs0, hs1, hs2, execCmd, hk,
              RVal.toDuration] at hfail
          · refine ⟨[(.ttl key, none), (.get key, none)], .del [key], e2,
              ?_, ?_, ?_, ?_⟩ <;>
              simp [Redis.Update, doVar, hs0, hs1, hs2, execCmd, hk,
                RVal.toDuration, replay]
        | some v =>
          rcases hs2 : sched 2 with _ | e2
          · simp [Redis.Update, doVar, hs0, hs1, hs2, execCmd, hk,
              RVal.toDuration] at hfail
          · refine ⟨[(.ttl key, none), (.get key, none)], .set key v, e2,
              ?_, ?_, ?_, ?_⟩ <;>
              simp [Redis.Update, doVar, hs0, hs1, hs2, execCmd, hk,
                RVal.toDuration, replay]
      · refine ⟨[(.ttl key, none)], .get key, e1, ?_, ?_, ?_, ?_⟩ <;>
          simp [Redis.Update, doVar, hs0, hs1, execCmd, hk,
            RVal.toDuration, replay]
    · have hn2 : (n : Int) ≠ -2 := by omega
      have hn1 : (n : Int) ≠ -1 := by omega
      rcases hs1 : sched 1 with _ | e1
      · cases value with
        | none =>
          rcases hs2 : sched 2 with _ | e2
          · simp [Redis.Update, doVar, hs0, hs1, hs2, execCmd, hk,
              RVal.toDuration, hn2, hn1] at hfail
          · refine ⟨[(.ttl key, none), (.get key, none)], .del [key], e2,
              ?_, ?_, ?_, ?_⟩ <;>
              simp [Redis.Update, doVar, hs0, hs1, hs2, execCmd, hk,
                RVal.toDuration, hn2, hn1, replay]
        | some v =>
          rcases hs2 : sched 2 with _ | e2
          · simp [Redis.Update, doVar, hs0, hs1, hs2, execCmd, hk,
              RVal.toDuration, hn2, hn1] at hfail
          · refine ⟨[(.ttl key, none), (.get key, none)],
              .setex key (goSeconds ((n : Int) * second)) v, e2,
              ?_, ?_, ?_, ?_⟩ <;>
              simp [Redis.Update, doVar, hs0, hs1, hs2, execCmd, hk,
                RVal.toDuration, hn2, hn1, replay]
      · refine ⟨[(.ttl key, none)], .get key, e1, ?_, ?_, ?_, ?_⟩ <;>
          simp [Redis.Update, doVar, hs0, hs1, execCmd, hk,
            RVal.toDuration, hn2, hn1, replay]
  · refine ⟨[], .ttl key, e0, ?_, ?_, ?_, ?_⟩ <;>
      simp [Redis.Update, doVar, hs0, replay]

theorem updateExpireZero_aborts (st : Store) (sched : Nat → Option Err)
    (key : Key) :
    abortsOnFirstFailure st (Redis.UpdateExpire key 0 ⟨st, [], sched⟩).2
      (Redis.UpdateExpire key 0 ⟨st, [], sched⟩).1.2 := by
  unfold abortsOnFirstFailure
  intro hfail
  rcases hs0 : sched 0 with _ | e0
  · rcases hk : findEntry st key with _ | ⟨val, _ | n⟩
    · simp [Redis.UpdateExpire, doVar, hs0, execCmd, hk,
        RVal.toDuration] at hfail
    · rcases hs1 : sched 1 with _ | e1
      · rcases hs2 : sched 2 with _ | e2
        · simp [Redis.UpdateExpire, doVar, hs0, hs1, hs2, execCmd, hk,
            RVal.toDuration] at hfail
        · refine ⟨[(.ttl key, none), (.get key, none)], .set key val, e2,
            ?_, ?_, ?_, ?_⟩ <;>
            simp [Redis.UpdateExpire, doVar, hs0, hs1, hs2, execCmd, hk,
              RVal.toDuration, RVal.toVal, replay]
      · refine ⟨[(.ttl key, none)], .get key, e1, ?_, ?_, ?_, ?_⟩ <;>
          simp [Redis.UpdateExpire, doVar, hs0, hs1, execCmd, hk,
            RVal.toDuration, replay]
    · have hn2 : (n : Int) ≠ -2 := by omega
      rcases hs1 : sched 1 with _ | e1
      · rcases hs2 : sched 2 with _ | e2
        · simp [Redis.UpdateExpire, doVar, hs0, hs1, hs2, execCmd, hk,
            RVal.toDuration, hn2] at hfail
        · refine ⟨[(.ttl key, none), (.get key, none)], .set key val, e2,
            ?_, ?_, ?_, ?_⟩ <;>
            simp [Redis.UpdateExpire, doVar, hs0, hs1, hs2, execCmd, hk,
              RVal.toDuration, RVal.toVal, hn2, replay]
      · refine ⟨[(.ttl key, none)], .get key, e1, ?_, ?_, ?_, ?_⟩ <;>
          simp [Redis.UpdateExpire, doVar, hs0, hs1, execCmd, hk,
            RVal.toDuration, hn2, replay]
  · refine ⟨[], .ttl key, e0, ?_, ?_, ?_, ?_⟩ <;>
      simp [Redis.UpdateExpire, doVar, hs0, replay]

theorem setIfNotExistFunc_aborts (st : Store) (sched : Nat → Option Err)
    (key : Key) (f : Option Val × Option Err) (duration : Duration) :
    abortsOnFirstFailure st
      (Redis.SetIfNotExistFunc key f duration ⟨st, [], sched⟩).2
      (Redis.SetIfNotExistFunc key f duration ⟨st, [], sched⟩).1.2 := by
  obtain ⟨fv, fe⟩ := f
  unfold abortsOnFirstFailure
  intro hfail
  rcases hs0 : sched 0 with _ | e0
  · rcases hk : findEntry st key with _ | e
    · cases fe with
      | some e1 =>
        simp [Redis.SetIfNotExistFunc, Redis.Get, doVar, hs0, execCmd,
          hk] at hfail
      | none =>
        cases fv with
        | none =>
          simp [Redis.SetIfNotExistFunc, Redis.Get, doVar, hs0, execCmd,
            hk] at hfail
        | some v =>
          rcases hs1 : sched 1 with _ | e1
          · by_cases hd1 : duration < 0 <;> by_cases hd2 : duration = 0 <;>
              simp [Redis.SetIfNotExistFunc, Redis.Get, Redis.Set, doVar,
                hs0, hs1, execCmd, hk, hd1, hd2] at hfail
          · by_cases hd1 : duration < 0
            · refine ⟨[(.get key, none)], .del [key], e1, ?_, ?_, ?_, ?_⟩ <;>
                simp [Redis.SetIfNotExistFunc, Redis.Get, Redis.Set, doVar,
                  hs0, hs1, execCmd, hk, hd1, replay]
            · by_cases hd2 : duration = 0
              · refine ⟨[(.get key, none)], .set key v, e1,
                  ?_, ?_, ?_, ?_⟩ <;>
                  simp [Redis.SetIfNotExistFunc, Redis.Get, Redis.Set, doVar,
                    hs0, hs1, execCmd, hk, hd1, hd2, replay, goArg]
              · refine ⟨[(.get key, none)],
                  .setex key (goSeconds duration) v, e1, ?_, ?_, ?_, ?_⟩ <;>
                  simp [Redis.SetIfNotExistFunc, Redis.Get, Redis.Set, doVar,
                    hs0, hs1, execCmd, hk, hd1, hd2, replay, goArg]
    · simp [Redis.SetIfNotExistFunc, Redis.Get, doVar, hs0, execCmd,
        hk] at hfail
  · refine ⟨[], .get key, e0, ?_, ?_, ?_, ?_⟩ <;>
      simp [Redis.SetIfNotExistFunc, Redis.Get, doVar, hs0, replay]

/-- C10: for each multi-step operation — Update, UpdateExpire with zero
duration, SetIfNotExistFunc — whenever a constituent remote call fails,
that call is the last command issued, every earlier call succeeded, the
collaborator's error is returned unchanged, and the final store is
exactly the replay of the successful prefix: no rollback, no further
commands. -/
theorem multiStepOpsAbortOnFirstFailure (st : Store)
    (sched : Nat → Option Err) (key : Key) (value : Option Val)
    (f : Option Val × Option Err) (duration : Duration) :
    abortsOnFirstFailure st (Redis.Update key value ⟨st, [], sched⟩).2
        (Redis.Update key value ⟨st, [], sched⟩).1.2.2 ∧
      abortsOnFirstFailure st (Redis.UpdateExpire key 0 ⟨st, [], sched⟩).2
        (Redis.UpdateExpire key 0 ⟨st, [], sched⟩).1.2 ∧
      abortsOnFirstFailure st
        (Redis.SetIfNotExistFunc key f duration ⟨st, [], sched⟩).2
        (Redis.SetIfNotExistFunc key f duration ⟨st, [], sched⟩).1.2 :=
  ⟨update_aborts st sched key value, updateExpireZero_aborts st sched key,
   setIfNotExistFunc_aborts st sched key f duration⟩

/-- A schedule that fails exactly the call with the given index. -/
def failAt (k : Nat) : Nat → Option Err := fun n => if n = k then some "boom" else none

theorem multiStepOpsAbortOnFirstFailureWitness :
    ∃ pre c e,
      (Redis.Update "k" (some "w")
            ⟨[("k", ⟨"x", some 5⟩)], [], failAt 2⟩).2.trace
          = pre ++ [(c, some e)] ∧
        (∀ q ∈ pre, q.2 = none) ∧
        (Redis.Update "k" (some "w")
            ⟨[("k", ⟨"x", some 5⟩)], [], failAt 2⟩).1.2.2 = some e ∧
        (Redis.Update "k" (some "w")
            ⟨[("k", ⟨"x", some 5⟩)], [], failAt 2⟩).2.store
          = replay [("k", ⟨"x", some 5⟩)] (pre.map Prod.fst) :=
  (multiStepOpsAbortOnFirstFailure [("k", ⟨"x", some 5⟩)] (failAt 2) "k"
      (some "w") (some "w", none) 0).1 (by decide)

end Adapter
